import Mathlib

/-!
Verification development for the smithy access-control core.

The definitions below are a shallow embedding of the Python source:
`app/core/security.py` (TokenManager), `app/db/redis_client.py`
(RedisClient), `app/core/auth.py` (get_current_user),
`app/services/auth_service.py` (AuthService), `app/services/mfa_service.py`
(MFAService) and `app/services/rbac_service.py` / `app/models/rbac.py`
(RBAC). Time is modelled as `Nat` seconds, database tables as lists of
records, and the JWT signature as an idealised MAC: a well-formed token
carries the key it was signed with, and signature verification checks that
key against the server secret.
-/

namespace Smithy

/-! ## Token Manager (`app/core/security.py`) -/

/-- Server configuration constants from `app/core/config.py` (defaults). -/
def SECRET_KEY : String := "dev-secret-key-change-in-production"

/-- Default access-token lifetime in minutes (`ACCESS_TOKEN_EXPIRE_MINUTES`). -/
def accessTokenExpireMinutes : Nat := 30

/-- Default refresh-token lifetime in days (`REFRESH_TOKEN_EXPIRE_DAYS`). -/
def refreshTokenExpireDays : Nat := 7

/-- The structured JWT payload built by `TokenManager.create_access_token` /
`create_refresh_token`.  `extra` models the `additional_claims` dictionary
entries; the callers in this repository only pass non-registered claims
(`mfa_enabled`, `is_verified`), which is what the embedding supports. -/
structure Claims where
  sub : String
  userId : String
  role : String
  exp : Nat
  iat : Nat
  type : String
  jti : String
  extra : List (String × String)
deriving DecidableEq, Repr

/-- A JWT as seen by `python-jose`: either a well-formed compact token whose
signature was produced with some key (idealised MAC), or a malformed blob. -/
inductive Token where
  | signed (claims : Claims) (sigKey : String)
  | malformed (raw : String)
deriving DecidableEq, Repr

/-- Errors raised by `TokenManager.decode_token`: `ValueError("Token has
expired")` and `ValueError("Invalid token: ...")`. -/
inductive TokenError where
  | expired
  | invalid
deriving DecidableEq, Repr

/-- `TokenManager.create_access_token`: builds the payload (with
`type="access"`, `exp = now + expires_delta` or the configured default) and
signs it with the server secret.  `jti` is the caller-visible stand-in for
`str(uuid.uuid4())`. -/
def create_access_token (subject userId role : String) (expiresDelta : Option Nat)
    (extra : List (String × String)) (now : Nat) (jti : String) : Token :=
  let expire :=
    match expiresDelta with
    | some d => now + d
    | none => now + accessTokenExpireMinutes * 60
  Token.signed
    { sub := subject, userId := userId, role := role, exp := expire,
      iat := now, type := "access", jti := jti, extra := extra }
    SECRET_KEY

/-- `TokenManager.create_refresh_token`: same shape with `type="refresh"`
and no role claim (the source omits `role` from the refresh payload; the
embedding stores the empty string there). -/
def create_refresh_token (subject userId : String) (expiresDelta : Option Nat)
    (now : Nat) (jti : String) : Token :=
  let expire :=
    match expiresDelta with
    | some d => now + d
    | none => now + refreshTokenExpireDays * 86400
  Token.signed
    { sub := subject, userId := userId, role := "", exp := expire,
      iat := now, type := "refresh", jti := jti, extra := [] }
    SECRET_KEY

/-- `TokenManager.decode_token`: `jose.jwt.decode` first checks the
signature (any failure, including a malformed token, raises a generic
`JWTError` mapped to `ValueError("Invalid token: ...")`), then checks the
`exp` claim (`exp < now` raises `ExpiredSignatureError`, whose message
contains "Signature has expired" and is mapped to
`ValueError("Token has expired")`). -/
def decode_token (t : Token) (now : Nat) : Except TokenError Claims :=
  match t with
  | .malformed _ => .error .invalid
  | .signed c key =>
    if key = SECRET_KEY then
      if c.exp < now then .error .expired else .ok c
    else .error .invalid

/-- `TokenManager.get_token_jti`: decodes without verification and returns
the `jti` claim, or `none` on malformed input. -/
def get_token_jti (t : Token) : Option String :=
  match t with
  | .signed c _ => some c.jti
  | .malformed _ => none

/-! ## Revocation & Session Store (`app/db/redis_client.py`)

The cache is a list-backed key/value store with absolute expiry times.  A
`RedisState` also records whether the client is connected (`conn`) and
whether the next operations raise `redis.RedisError` (`failing`), because
`RedisClient` catches both situations and converts them into `False`/`None`
results. -/

/-- One cache entry: a value plus an optional absolute expiry instant.  A
key set with `ex=ttl` at time `t` is live exactly while `now < t + ttl`. -/
structure CacheEntry (V : Type) where
  value : V
  expiresAt : Option Nat
deriving DecidableEq, Repr

/-- State of the Redis client. -/
structure RedisState (V : Type) where
  conn : Bool
  failing : Bool
  store : List (String × CacheEntry V)
deriving DecidableEq, Repr

/-- Raw lookup of the entry stored under a key, ignoring liveness. -/
def lookupEntry {V : Type} (st : RedisState V) (key : String) :
    Option (CacheEntry V) :=
  (st.store.find? (fun kv => decide (kv.1 = key))).map (·.2)

/-- The value stored under `key` if the entry exists and has not expired. -/
def liveValue {V : Type} (st : RedisState V) (key : String) (now : Nat) :
    Option V :=
  match lookupEntry st key with
  | none => none
  | some e =>
    match e.expiresAt with
    | none => some e.value
    | some exp => if now < exp then some e.value else none

/-- `RedisClient.set`: returns `False` when the client is not connected or
the operation raises `RedisError`; otherwise stores the value with expiry
`now + ttl` and returns `True`. -/
def redisSet {V : Type} (st : RedisState V) (key : String) (value : V)
    (expire : Option Nat) (now : Nat) : Bool × RedisState V :=
  match st.conn, st.failing with
  | false, _ => (false, st)
  | true, true => (false, st)
  | true, false =>
    (true,
      { st with
        store := (key, ⟨value, expire.map (now + ·)⟩) ::
          st.store.filter (fun kv => decide (kv.1 ≠ key)) })

/-- `RedisClient.get`: returns `None` when disconnected, on `RedisError`,
or when the key is absent/expired. -/
def redisGet {V : Type} (st : RedisState V) (key : String) (now : Nat) :
    Option V :=
  match st.conn, st.failing with
  | false, _ => none
  | true, true => none
  | true, false => liveValue st key now

/-- `RedisClient.delete`: removes the key; returns `False` when
disconnected or on error. -/
def redisDelete {V : Type} (st : RedisState V) (key : String) :
    Bool × RedisState V :=
  match st.conn, st.failing with
  | false, _ => (false, st)
  | true, true => (false, st)
  | true, false =>
    ((lookupEntry st key).isSome,
      { st with store := st.store.filter (fun kv => decide (kv.1 ≠ key)) })

/-- `RedisClient.exists`: `False` when the client is disconnected or the
operation raises `RedisError` — the unavailable cache is reported exactly
like an absent key. -/
def redisExists {V : Type} (st : RedisState V) (key : String) (now : Nat) :
    Bool :=
  match st.conn, st.failing with
  | false, _ => false
  | true, true => false
  | true, false => (liveValue st key now).isSome

/-- Key layout of `blacklist_token` (`BLACKLISTED_TOKEN` key family). -/
def blacklistKey (jti : String) : String := "blacklisted_token:" ++ jti

/-- Key layout of `set_session` (`SESSION` key family). -/
def sessionKey (sid : String) : String := "session:" ++ sid

/-- `RedisClient.blacklist_token`: stores the marker string "revoked" under
the blacklist key with the given TTL. -/
def blacklist_token (st : RedisState String) (jti : String)
    (expire : Option Nat) (now : Nat) : Bool × RedisState String :=
  redisSet st (blacklistKey jti) "revoked" expire now

/-- `RedisClient.is_token_blacklisted`: existence check on the blacklist
key. -/
def is_token_blacklisted (st : RedisState String) (jti : String) (now : Nat) :
    Bool :=
  redisExists st (blacklistKey jti) now

/-! ## Authenticated-request slice (`app/core/auth.py`) -/

/-- `UserStatus` enum from `app/models/user.py`. -/
inductive UserStatus where
  | active
  | inactive
  | suspended
  | pendingVerification
  | archived
deriving DecidableEq, Repr

/-- The slice of the `User` row consumed by the access-control core. -/
structure UserRec where
  id : String
  email : String
  username : String
  role : String
  isActive : Bool
  status : UserStatus
  isVerified : Bool
  passwordHash : Option String
  mfaEnabled : Bool
  mfaSecret : Option String
deriving DecidableEq, Repr

/-- Errors surfaced by `get_current_user` (`AuthenticationException`,
`NotFoundException`, `ForbiddenException`). -/
inductive AuthError where
  | authentication (msg : String)
  | notFound
  | forbidden (msg : String)
deriving DecidableEq, Repr

/-- The `AuthUser` schema returned on success. -/
structure AuthUser where
  id : String
  email : String
  username : String
  role : String
  isVerified : Bool
  isActive : Bool
deriving DecidableEq, Repr

/-- `get_current_user`: decodes the bearer token, requires `type="access"`,
rejects the request when the jti is blacklisted (`is_token_blacklisted`),
loads the user row, and rejects inactive/suspended/archived accounts.  A
decode failure of either kind surfaces as the generic
"Token has expired or is invalid" authentication error. -/
def get_current_user (tok : Token) (redis : RedisState String)
    (users : List UserRec) (now : Nat) : Except AuthError AuthUser :=
  match decode_token tok now with
  | .error _ => .error (.authentication "Token has expired or is invalid")
  | .ok payload =>
    if payload.type ≠ "access" then
      .error (.authentication "Invalid token type")
    else if payload.jti ≠ "" ∧ is_token_blacklisted redis payload.jti now then
      .error (.authentication "Token has been revoked")
    else
      match users.find? (fun u => decide (u.id = payload.userId)) with
      | none => .error .notFound
      | some user =>
        if user.isActive = false ∨ user.status = UserStatus.suspended ∨
            user.status = UserStatus.archived then
          .error (.forbidden "User account is not active")
        else
          .ok { id := user.id, email := user.email, username := user.username,
                role := user.role, isVerified := user.isVerified,
                isActive := user.isActive }

/-! ## Permission Resolver (`app/services/rbac_service.py`,
`app/models/rbac.py`) -/

/-- `ResourceType` enum. -/
inductive ResourceType where
  | system
  | organization
  | project
  | task
  | user
deriving DecidableEq, Repr

/-- A `UserRole` assignment row (`app/models/rbac.py`). -/
structure UserRoleRec where
  userId : String
  roleId : String
  resourceId : Option String
  resourceType : ResourceType
  grantedAt : Nat
  expiresAt : Option Nat
  isActive : Bool
deriving DecidableEq, Repr

/-- `UserRole.is_expired`: false when `expires_at` is null, otherwise
`datetime.now(UTC) > expires_at`. -/
def UserRoleRec.is_expired (ur : UserRoleRec) (now : Nat) : Bool :=
  match ur.expiresAt with
  | none => false
  | some e => decide (e < now)

/-- `UserRole.is_valid`: `is_active and not is_expired`. -/
def UserRoleRec.is_valid (ur : UserRoleRec) (now : Nat) : Bool :=
  ur.isActive && !(ur.is_expired now)

/-- A `Role` row (only the columns the resolver touches). -/
structure RoleRec where
  id : String
  slug : String
  isActive : Bool
deriving DecidableEq, Repr

/-- A `RolePermission` join row. -/
structure RolePermissionRec where
  roleId : String
  permissionId : String
deriving DecidableEq, Repr

/-- A `Permission` catalog row. -/
structure PermissionRec where
  id : String
  name : String
deriving DecidableEq, Repr

/-- The relational tables the resolver queries. -/
structure RbacDb where
  userRoles : List UserRoleRec
  roles : List RoleRec
  rolePermissions : List RolePermissionRec
  permissions : List PermissionRec
deriving DecidableEq, Repr

/-- The WHERE clause built in `RBACService.get_user_permissions`:
`base_cond` is user match plus `UserRole.is_active`; `ctx_parts` collects a
resource-type equality when `resource_type` is given and a resource-id
equality when `resource_id` is given; the final condition is
`base AND system` when the requested type is SYSTEM, `base AND (ctx OR
system)` when any context predicate exists, and plain `base` otherwise.
Note that the query never constrains `expires_at`. -/
def userRoleCond (uid : String) (rid : Option String)
    (rty : Option ResourceType) (ur : UserRoleRec) : Bool :=
  let base := decide (ur.userId = uid) && ur.isActive
  let system := decide (ur.resourceType = ResourceType.system)
  let ctxParts : List Bool :=
    (match rty with
     | some t => [decide (ur.resourceType = t)]
     | none => []) ++
    (match rid with
     | some r => [decide (ur.resourceId = some r)]
     | none => [])
  if rty = some ResourceType.system then base && system
  else if ctxParts.isEmpty then base
  else base && (ctxParts.all id || system)

/-- `RBACService.get_user_permissions`: the SELECT DISTINCT of
`Permission.name` joined through `RolePermission`, `Role` (restricted to
`Role.is_active IS TRUE`) and `UserRole` under `userRoleCond`.  Set
semantics are captured through list membership. -/
def get_user_permissions (db : RbacDb) (uid : String) (rid : Option String)
    (rty : Option ResourceType) : List String :=
  (db.permissions.filter (fun p =>
    db.rolePermissions.any (fun rp =>
      decide (rp.permissionId = p.id) &&
      db.roles.any (fun role =>
        decide (role.id = rp.roleId) && role.isActive &&
        db.userRoles.any (fun ur =>
          decide (ur.roleId = role.id) && userRoleCond uid rid rty ur))))).map
    (·.name)

/-- Opaque stand-in for a SQLAlchemy exception raised by the storage
layer. -/
structure DbErr where
  msg : String
deriving DecidableEq, Repr

/-- `RBACService.has_permission`: resolves the permission set (a storage
error is caught, logged and converted to `False`), then succeeds when the
requested name is in the set or when the set contains the universal
"system.admin" permission. -/
def has_permission (dbr : Except DbErr RbacDb) (uid : String) (perm : String)
    (rid : Option String) (rty : Option ResourceType) : Bool :=
  match dbr with
  | .error _ => false
  | .ok db =>
    let userPermissions := get_user_permissions db uid rid rty
    if perm ∈ userPermissions then true
    else if "system.admin" ∈ userPermissions then true
    else false

/-! ## MFA Engine (`app/services/mfa_service.py`,
`app/models/mfa_backup_code.py`) -/

/-- Idealised bcrypt digest produced by `backup_code_context.hash`: the
embedding treats the hash as an injective tag so that
`backup_code_context.verify(code, hash)` is digest equality. -/
def hashCode (c : String) : String := "bcrypt$" ++ c

/-- `backup_code_context.verify(code, code_hash)`. -/
def verifyHash (c h : String) : Bool := decide (h = hashCode c)

/-- An `MFABackupCode` row.  `id` is the primary key identifying the ORM
object that `mark_as_used` mutates. -/
structure MFABackupCode where
  id : Nat
  userId : String
  codeHash : String
  isUsed : Bool
  usedAt : Option Nat
  usedFromIp : Option String
  generatedAt : Nat
  expiresAt : Option Nat
deriving DecidableEq, Repr

/-- `MFABackupCode.mark_as_used`: unconditionally assigns
`is_used = True`, the current timestamp and the caller's origin — there is
no check of the previous `is_used` value. -/
def MFABackupCode.mark_as_used (bc : MFABackupCode) (now : Nat)
    (ip : Option String) : MFABackupCode :=
  { bc with isUsed := true, usedAt := some now, usedFromIp := ip }

/-- The SELECT at the top of `MFAService._verify_backup_code`: up to 15
rows of the user with `is_used == False` and `expires_at > now` (SQL
three-valued logic drops rows with a NULL `expires_at`). -/
def selectUnusedCodes (db : List MFABackupCode) (uid : String) (now : Nat) :
    List MFABackupCode :=
  (db.filter (fun bc =>
    decide (bc.userId = uid) && !bc.isUsed &&
    (match bc.expiresAt with
     | some e => decide (now < e)
     | none => false))).take 15

/-- The marking-and-commit phase of `_verify_backup_code`, split from the
SELECT so that interleavings of concurrent calls can be expressed: the
first completed matching comparison task wins, its record is marked used
via `mark_as_used` and committed, and the call returns `True`; with no
match the call returns `False`.  The write is a plain ORM attribute
assignment followed by `commit()` — it carries no `WHERE is_used = false`
guard, so it updates the row found in the snapshot regardless of the row's
current state. -/
def commitMatch (db : List MFABackupCode) (snapshot : List MFABackupCode)
    (code : String) (now : Nat) (ip : Option String) :
    Bool × List MFABackupCode :=
  match snapshot.find? (fun bc => verifyHash code bc.codeHash) with
  | none => (false, db)
  | some bc =>
    (true, db.map (fun r => if r.id = bc.id then r.mark_as_used now ip else r))

/-- `MFAService._verify_backup_code` as executed by a single call: SELECT
the unused, unexpired candidates, race the comparison tasks (modelled by
the first match in candidate order), mark and commit the winner. -/
def verify_backup_code (db : List MFABackupCode) (uid code : String)
    (ip : Option String) (now : Nat) : Bool × List MFABackupCode :=
  commitMatch db (selectUnusedCodes db uid now) code now ip

/-- One freshly generated backup-code row, as built in
`MFAService._store_backup_codes` (`expires_at = now + 365 days`). -/
def newBackupCode (uid : String) (c : String) (now : Nat) (rowId : Nat) :
    MFABackupCode :=
  { id := rowId, userId := uid, codeHash := hashCode c, isUsed := false,
    usedAt := none, usedFromIp := none, generatedAt := now,
    expiresAt := some (now + 365 * 86400) }

/-- `MFAService._store_backup_codes`: hashes each plaintext code and bulk
inserts the batch; `firstId` models the primary keys the store assigns to
the new rows. -/
def store_backup_codes (uid : String) (codes : List String) (now : Nat)
    (firstId : Nat) : List MFABackupCode :=
  match codes with
  | [] => []
  | c :: rest => newBackupCode uid c now firstId ::
      store_backup_codes uid rest now (firstId + 1)

/-- The aggregate row returned by `MFAService.get_backup_codes_info`. -/
structure MFABackupCodesInfo where
  totalCodes : Nat
  usedCodes : Nat
  remainingCodes : Nat
  lastGenerated : Option Nat
deriving DecidableEq, Repr

/-- `MFAService.get_backup_codes_info`: COUNT, SUM of casts of `is_used`
and MAX of `generated_at` over the user's rows, with
`remaining = total - used`.  The password check that precedes the query in
the source is performed by `_get_user_and_verify_password` and is not part
of the count computation embedded here. -/
def get_backup_codes_info (db : List MFABackupCode) (uid : String) :
    MFABackupCodesInfo :=
  let rows := db.filter (fun bc => decide (bc.userId = uid))
  let total := rows.length
  let used := (rows.filter (fun bc => bc.isUsed)).length
  { totalCodes := total, usedCodes := used, remainingCodes := total - used,
    lastGenerated := (rows.map (·.generatedAt)).max? }

/-- Idealised TOTP code for a secret at a 30-second time step (stands in
for the `pyotp` computation, injective in the step for a fixed secret). -/
def totp_code (secret : String) (step : Nat) : String :=
  "totp$" ++ secret ++ "$" ++ toString step

/-- `MFAService._verify_totp_code`: `pyotp.TOTP(secret).verify(code,
valid_window=1)` accepts the codes of the current 30-second step and of
the two adjacent steps. -/
def totp_verify (secret code : String) (now : Nat) : Bool :=
  let step := now / 30
  ((List.range 3).map (fun i => step + i - 1)).any
    (fun w => decide (code = totp_code secret w))

/-- Errors raised by `verify_mfa_code` and
`complete_mfa_authentication`. -/
inductive MfaError where
  | notEnabled
  | sessionExpired
  | invalidSession
  | invalidCode
deriving DecidableEq, Repr

/-- `MFAService.verify_mfa_code` on the cache-miss path (the short-TTL
read-through cache in front of the user row is an optimization the spec
allows omitting): raises when the user has MFA disabled or no secret,
accepts a valid TOTP code, and otherwise falls through to
`_verify_backup_code` only when `check_backup` is set. -/
def verify_mfa_code (user : UserRec) (backupDb : List MFABackupCode)
    (code : String) (ip : Option String) (now : Nat) (checkBackup : Bool) :
    Except MfaError (Bool × List MFABackupCode) :=
  match user.mfaSecret with
  | none => .error .notEnabled
  | some secret =>
    if user.mfaEnabled = false then .error .notEnabled
    else if totp_verify secret code now then .ok (true, backupDb)
    else if checkBackup then .ok (verify_backup_code backupDb user.id code ip now)
    else .ok (false, backupDb)

/-- The cache value stored under `"partial_auth:" ++ token` by
`authenticate_user`: the principal id and the issuance timestamp. -/
structure PendingAuthData where
  userId : String
  timestamp : Nat
deriving DecidableEq, Repr

/-- State touched by `AuthService.complete_mfa_authentication`: the cache
holding the pending-auth entries, the user table and the backup-code
table. -/
structure AuthState where
  cache : RedisState PendingAuthData
  users : List UserRec
  backupCodes : List MFABackupCode
deriving DecidableEq, Repr

/-- `AuthService.complete_mfa_authentication`: loads the cache entry for
the opaque token (missing or expired → "Invalid or expired authentication
session"), loads the user (absent or MFA disabled → "Invalid
authentication session"), verifies the code with `check_backup=False`,
deletes the cache entry and only then mints the session tokens; the
embedding returns the authenticated principal id together with the updated
state. -/
def complete_mfa_authentication (st : AuthState) (token code : String)
    (now : Nat) : Except MfaError (String × AuthState) :=
  match redisGet st.cache ("partial_auth:" ++ token) now with
  | none => .error .sessionExpired
  | some pending =>
    match st.users.find? (fun u => decide (u.id = pending.userId)) with
    | none => .error .invalidSession
    | some user =>
      if user.mfaEnabled = false then .error .invalidSession
      else
        match verify_mfa_code user st.backupCodes code none now false with
        | .error e => .error e
        | .ok (ok, backupDb) =>
          if ok = false then .error .invalidCode
          else
            let cache := (redisDelete st.cache ("partial_auth:" ++ token)).2
            .ok (user.id, { st with cache := cache, backupCodes := backupDb })

/-! ## Logout / revocation slice (`app/services/auth_service.py`) and an
operation language over the shared cache, used to express that a blacklist
entry persists across the other callers' cache traffic. -/

/-- `AuthService.logout_user`, access-token half: decode, read `exp`; when
the token still has remaining lifetime the jti is blacklisted with
`expire = exp - now`, otherwise no entry is written. -/
def logout_blacklist_access (st : RedisState String) (payload : Claims)
    (now : Nat) : Bool × RedisState String :=
  if now < payload.exp then
    blacklist_token st payload.jti (some (payload.exp - now)) now
  else (true, st)

/-- The writes the rest of the system can issue against the shared string
cache: raw set/delete plus the session and blacklist wrappers of
`RedisClient`. -/
inductive CacheOp where
  | setOp (key value : String) (expire : Option Nat)
  | delOp (key : String)
  | setSessionOp (sid data : String) (expire : Option Nat)
  | delSessionOp (sid : String)
  | blacklistOp (jti : String) (expire : Option Nat)
deriving DecidableEq, Repr

/-- The cache key an operation writes. -/
def CacheOp.writesKey : CacheOp → String
  | .setOp key _ _ => key
  | .delOp key => key
  | .setSessionOp sid _ _ => sessionKey sid
  | .delSessionOp sid => sessionKey sid
  | .blacklistOp jti _ => blacklistKey jti

/-- Execute one cache operation at a given instant. -/
def applyCacheOp (st : RedisState String) : CacheOp × Nat → RedisState String
  | (.setOp key value expire, t) => (redisSet st key value expire t).2
  | (.delOp key, _) => (redisDelete st key).2
  | (.setSessionOp sid data expire, t) =>
      (redisSet st (sessionKey sid) data expire t).2
  | (.delSessionOp sid, _) => (redisDelete st (sessionKey sid)).2
  | (.blacklistOp jti expire, t) => (blacklist_token st jti expire t).2

/-- Execute a timed sequence of cache operations. -/
def applyCacheOps (st : RedisState String) (ops : List (CacheOp × Nat)) :
    RedisState String :=
  ops.foldl applyCacheOp st

/-! ## Concrete fixtures used by the theorems below. -/

/-- An organization-scoped assignment that is still `is_active` but whose
`expires_at = 5` lies in the past at `now = 10`. -/
def expiredAssignment : UserRoleRec :=
  { userId := "u1", roleId := "r1", resourceId := some "org1",
    resourceType := ResourceType.organization, grantedAt := 0,
    expiresAt := some 5, isActive := true }

/-- A database in which `expiredAssignment` is the only grant, reaching
the permission "project.read" through the active role "r1". -/
def expiredAssignmentDb : RbacDb :=
  { userRoles := [expiredAssignment],
    roles := [{ id := "r1", slug := "org.admin", isActive := true }],
    rolePermissions := [{ roleId := "r1", permissionId := "perm1" }],
    permissions := [{ id := "perm1", name := "project.read" }] }

/-- A still-active, never-expiring project-scoped assignment. -/
def narrowAssignment : UserRoleRec :=
  { userId := "u1", roleId := "r1", resourceId := some "proj9",
    resourceType := ResourceType.project, grantedAt := 0, expiresAt := none,
    isActive := true }

/-- A database whose only grant is a project-scoped assignment reaching
"task.read". -/
def narrowGrantDb : RbacDb :=
  { userRoles := [narrowAssignment],
    roles := [{ id := "r1", slug := "project.viewer", isActive := true }],
    rolePermissions := [{ roleId := "r1", permissionId := "perm1" }],
    permissions := [{ id := "perm1", name := "task.read" }] }

/-- A still-active, never-expiring system-scoped assignment. -/
def sysAdminAssignment : UserRoleRec :=
  { userId := "u1", roleId := "r1", resourceId := none,
    resourceType := ResourceType.system, grantedAt := 0, expiresAt := none,
    isActive := true }

/-- A database whose only grant is a system-scoped assignment reaching the
universal "system.admin" permission. -/
def sysAdminDb : RbacDb :=
  { userRoles := [sysAdminAssignment],
    roles := [{ id := "r1", slug := "system.super_admin", isActive := true }],
    rolePermissions := [{ roleId := "r1", permissionId := "perm1" }],
    permissions := [{ id := "perm1", name := "system.admin" }] }

/-- An arbitrary well-formed claims record, used to exhibit a token signed
with the wrong key. -/
def sampleClaims : Claims :=
  { sub := "a@b.c", userId := "u1", role := "admin", exp := 1000, iat := 0,
    type := "access", jti := "j0", extra := [] }

/-- The underlying cache contents holding a revocation marker for jti
"jtiR", live until instant 1000. -/
def revokedStore : List (String × CacheEntry String) :=
  [(blacklistKey "jtiR", ⟨"revoked", some 1000⟩)]

/-- A disconnected Redis client over `revokedStore`. -/
def downCache : RedisState String :=
  { conn := false, failing := false, store := revokedStore }

/-- A connected Redis client over `revokedStore` whose operations raise
`RedisError`. -/
def erroringCache : RedisState String :=
  { conn := true, failing := true, store := revokedStore }

/-- A healthy Redis client over `revokedStore`. -/
def healthyCache : RedisState String :=
  { conn := true, failing := false, store := revokedStore }

/-- An ordinary active, verified user row. -/
def plainUser : UserRec :=
  { id := "u1", email := "a@b.c", username := "u", role := "user",
    isActive := true, status := UserStatus.active, isVerified := true,
    passwordHash := some "h", mfaEnabled := false, mfaSecret := none }

/-- A valid access token for `plainUser` carrying the revoked jti "jtiR",
issued at 50 with a 600-second lifetime. -/
def revokedJtiToken : Token :=
  create_access_token "a@b.c" "u1" "user" (some 600) [] 50 "jtiR"

/-- Cache traffic from other callers used in the C5 witness: a session
write and a blacklist write for a different jti. -/
def witnessOps : List (CacheOp × Nat) :=
  [(CacheOp.setSessionOp "s1" "d" (some 50), 910),
   (CacheOp.blacklistOp "other" (some 10), 920)]

/-- A user with MFA enabled and TOTP secret "S". -/
def mfaUser : UserRec :=
  { id := "u1", email := "a@b.c", username := "u", role := "user",
    isActive := true, status := UserStatus.active, isVerified := true,
    passwordHash := some "h", mfaEnabled := true, mfaSecret := some "S" }

/-- A healthy cache holding the pending-auth entry of the opaque token
"tok1" for `mfaUser`, live until instant 400. -/
def pendingCache : RedisState PendingAuthData :=
  { conn := true, failing := false,
    store := [("partial_auth:tok1", ⟨⟨"u1", 100⟩, some 400⟩)] }

/-- Auth-service state holding the pending-auth entry for "tok1". -/
def mfaAuthState : AuthState :=
  { cache := pendingCache, users := [mfaUser], backupCodes := [] }

/-- Auth-service state with no pending-auth entry at all. -/
def emptyAuthState : AuthState :=
  { cache := { conn := true, failing := false, store := [] },
    users := [mfaUser], backupCodes := [] }

/-- A single unused, unexpired backup-code row for the code "AAAA-BBBB". -/
def raceRecord : MFABackupCode :=
  { id := 1, userId := "u1", codeHash := hashCode "AAAA-BBBB",
    isUsed := false, usedAt := none, usedFromIp := none, generatedAt := 0,
    expiresAt := some 1000 }

/-- Backup-code table holding only `raceRecord`. -/
def raceDb : List MFABackupCode := [raceRecord]

/-- A batch of ten pairwise distinct backup codes. -/
def witnessCodes : List String :=
  ["C0AA-AAAA", "C1BB-BBBB", "C2CC-CCCC", "C3DD-DDDD", "C4EE-EEEE",
   "C5FF-FFFF", "C6GG-GGGG", "C7HH-HHHH", "C8II-IIII", "C9JJ-JJJJ"]

/-! ## Theorems -/

/-- C9: when the storage layer raises any error during resolution,
`has_permission` returns `false` (deny, fail-closed) instead of
propagating the exception: the check is a total boolean function on the
error case. -/
theorem storage_error_fails_closed (e : DbErr) (uid perm : String)
    (rid : Option String) (rty : Option ResourceType) :
    has_permission (.error e) uid perm rid rty = false :=
  rfl

/-- C8: whenever the permission set resolved for the requested scope
contains the universal "system.admin" permission, `has_permission` answers
`true` regardless of the requested permission name. -/
theorem system_admin_overrides_any_permission (db : RbacDb)
    (uid perm : String) (rid : Option String) (rty : Option ResourceType)
    (h : "system.admin" ∈ get_user_permissions db uid rid rty) :
    has_permission (.ok db) uid perm rid rty = true := by
  unfold has_permission
  by_cases hp : perm ∈ get_user_permissions db uid rid rty <;> simp [hp, h]

/-- Witness for C8: in `sysAdminDb` the resolved set of user "u1" at the
unscoped context contains "system.admin", and a check for the unrelated
name "task.delete" succeeds. -/
theorem system_admin_overrides_any_permission_witness :
    has_permission (.ok sysAdminDb) "u1" "task.delete" none none = true :=
  system_admin_overrides_any_permission sysAdminDb "u1" "task.delete" none
    none (by decide)

/-- C10: a resolution call with neither a resource type nor a resource id
applies no scope filter: a permission is in the resolved set exactly when
some active assignment of the user — of any scope whatsoever — reaches it
through an active role; consequently an unscoped `has_permission` call
succeeds on the strength of the narrowly project-scoped grant of
`narrowGrantDb`. -/
theorem unscoped_resolution_ignores_scope :
    (∀ (db : RbacDb) (uid p : String),
      p ∈ get_user_permissions db uid none none ↔
        ∃ perm ∈ db.permissions, perm.name = p ∧
        ∃ rp ∈ db.rolePermissions, rp.permissionId = perm.id ∧
        ∃ role ∈ db.roles, role.id = rp.roleId ∧ role.isActive = true ∧
        ∃ ur ∈ db.userRoles, ur.roleId = role.id ∧ ur.userId = uid ∧
          ur.isActive = true) ∧
    has_permission (.ok narrowGrantDb) "u1" "task.read" none none = true := by
  constructor
  · intro db uid p
    simp only [get_user_permissions, userRoleCond, List.mem_map,
      List.mem_filter, List.any_eq_true, Bool.and_eq_true, decide_eq_true_eq,
      List.append_nil, List.isEmpty_nil, if_true, reduceCtorEq, if_false]
    constructor
    · rintro ⟨a, ⟨ha, rp, hrp, hrpid, role, hrole, ⟨hrid, hract⟩, ur, hur,
        hurole, huruid, huract⟩, hname⟩
      exact ⟨a, ha, hname, rp, hrp, hrpid, role, hrole, hrid, hract, ur, hur,
        hurole, huruid, huract⟩
    · rintro ⟨perm, hperm, hname, rp, hrp, hrpid, role, hrole, hrid, hract,
        ur, hur, hurole, huruid, huract⟩
      exact ⟨perm, ⟨hperm, rp, hrp, hrpid, role, hrole, ⟨hrid, hract⟩, ur,
        hur, hurole, huruid, huract⟩, hname⟩
  · decide

/-- C2 (code bug): the claim requires resolution to drop assignments past
their `expires_at`, and `UserRole.is_valid` agrees that the fixture
assignment is invalid at `now = 10`; yet the WHERE clause of
`get_user_permissions` never constrains `expires_at`, so the expired
assignment still contributes "project.read" and the permission check
passes. -/
theorem expired_assignment_still_grants_permissions :
    expiredAssignment.is_valid 10 = false ∧
    "project.read" ∈ get_user_permissions expiredAssignmentDb "u1"
      (some "org1") (some ResourceType.organization) ∧
    has_permission (.ok expiredAssignmentDb) "u1" "project.read"
      (some "org1") (some ResourceType.organization) = true := by
  refine ⟨rfl, ?_, ?_⟩ <;> decide

/-- C4: a freshly created access token decodes successfully strictly
before its TTL elapses and the returned claims carry the creation inputs;
decoding strictly after the expiry instant fails with the token-expired
error; a token signed with any key other than the server secret, or a
malformed token, fails with the token-invalid error. -/
theorem token_create_verify_roundtrip (subject userId role : String)
    (extra : List (String × String)) (ttl now t : Nat) (jti : String)
    (c : Claims) (key raw : String) :
    (t < now + ttl →
      ∃ cl, decode_token (create_access_token subject userId role (some ttl)
          extra now jti) t = .ok cl ∧
        cl.userId = userId ∧ cl.role = role ∧ cl.sub = subject) ∧
    (now + ttl < t →
      decode_token (create_access_token subject userId role (some ttl)
        extra now jti) t = .error .expired) ∧
    (key ≠ SECRET_KEY → decode_token (.signed c key) t = .error .invalid) ∧
    decode_token (.malformed raw) t = .error .invalid := by
  refine ⟨?_, ?_, ?_, rfl⟩
  · intro h
    have h2 : ¬ (now + ttl < t) := by omega
    refine ⟨{ sub := subject, userId := userId, role := role,
              exp := now + ttl, iat := now, type := "access", jti := jti,
              extra := extra }, ?_, rfl, rfl, rfl⟩
    simp [decode_token, create_access_token, h2]
  · intro h
    simp [decode_token, create_access_token, h]
  · intro hk
    simp [decode_token, hk]

/-- Witness for C4: the token minted at 100 with a 60-second TTL decodes
at 130 to claims carrying principal "u1" and role "admin", is expired at
200, and wrong-key/malformed tokens are invalid. -/
theorem token_create_verify_roundtrip_witness :
    (∃ cl, decode_token (create_access_token "a@b.c" "u1" "admin" (some 60)
        [] 100 "j1") 130 = .ok cl ∧
      cl.userId = "u1" ∧ cl.role = "admin" ∧ cl.sub = "a@b.c") ∧
    decode_token (create_access_token "a@b.c" "u1" "admin" (some 60) [] 100
      "j1") 200 = .error .expired ∧
    decode_token (.signed sampleClaims "wrong-key") 100 = .error .invalid ∧
    decode_token (.malformed "garbage") 100 = .error .invalid := by
  have h1 := token_create_verify_roundtrip "a@b.c" "u1" "admin" [] 60 100
    130 "j1" sampleClaims "wrong-key" "garbage"
  have h2 := token_create_verify_roundtrip "a@b.c" "u1" "admin" [] 60 100
    200 "j1" sampleClaims "wrong-key" "garbage"
  exact ⟨h1.1 (by decide), h2.2.1 (by decide), h1.2.2.1 (by decide),
    h1.2.2.2⟩

/-- C3 (code bug): when the cache client is disconnected or the cache
operation raises, `RedisClient.exists` returns `False`, so
`is_token_blacklisted` reports the token as not blacklisted — even though
the very same underlying store carries a live revocation marker, as the
healthy-client conjuncts show — and `get_current_user` accepts the request
instead of failing closed. -/
theorem unavailable_cache_reports_not_blacklisted_and_accepts :
    is_token_blacklisted downCache "jtiR" 100 = false ∧
    is_token_blacklisted erroringCache "jtiR" 100 = false ∧
    get_current_user revokedJtiToken downCache [plainUser] 100 =
      .ok { id := "u1", email := "a@b.c", username := "u", role := "user",
            isVerified := true, isActive := true } ∧
    get_current_user revokedJtiToken erroringCache [plainUser] 100 =
      .ok { id := "u1", email := "a@b.c", username := "u", role := "user",
            isVerified := true, isActive := true } ∧
    is_token_blacklisted healthyCache "jtiR" 100 = true ∧
    get_current_user revokedJtiToken healthyCache [plainUser] 100 =
      .error (.authentication "Token has been revoked") := by
  exact ⟨rfl, rfl, rfl, rfl, rfl, rfl⟩

/-- Dropping the entries of an unrelated key from an association list does
not change which entry a lookup of `key` finds first. -/
theorem find?_filter_other {V : Type} (l : List (String × CacheEntry V))
    (key k : String) (h : k ≠ key) :
    (l.filter (fun kv => decide (kv.1 ≠ k))).find?
      (fun kv => decide (kv.1 = key)) =
    l.find? (fun kv => decide (kv.1 = key)) := by
  induction l with
  | nil => rfl
  | cons a l ih =>
    rcases eq_or_ne a.1 k with hak | hak
    · rw [List.filter_cons_of_neg (by simp [hak]),
        List.find?_cons_of_neg _ (by simp [hak]; exact h), ih]
    · rw [List.filter_cons_of_pos (by simp [hak])]
      rcases eq_or_ne a.1 key with ha | ha
      · rw [List.find?_cons_of_pos _ (by simp [ha]),
          List.find?_cons_of_pos _ (by simp [ha])]
      · rw [List.find?_cons_of_neg _ (by simp [ha]),
          List.find?_cons_of_neg _ (by simp [ha]), ih]

/-- `redisSet` on one key leaves the stored entry of any other key
unchanged. -/
theorem lookupEntry_redisSet_other {V : Type} (st : RedisState V)
    (k : String) (v : V) (e : Option Nat) (t : Nat) (key : String)
    (h : k ≠ key) :
    lookupEntry (redisSet st k v e t).2 key = lookupEntry st key := by
  obtain ⟨conn, failing, store⟩ := st
  cases conn with
  | false => rfl
  | true =>
    cases failing with
    | true => rfl
    | false =>
      simp only [redisSet, lookupEntry]
      rw [List.find?_cons_of_neg _ (by simp [h]), find?_filter_other _ key k h]

/-- `redisDelete` on one key leaves the stored entry of any other key
unchanged. -/
theorem lookupEntry_redisDelete_other {V : Type} (st : RedisState V)
    (k key : String) (h : k ≠ key) :
    lookupEntry (redisDelete st k).2 key = lookupEntry st key := by
  obtain ⟨conn, failing, store⟩ := st
  cases conn with
  | false => rfl
  | true =>
    cases failing with
    | true => rfl
    | false =>
      simp only [redisDelete, lookupEntry]
      rw [find?_filter_other _ key k h]

/-- A cache operation that writes a different key leaves the stored entry
of `key` unchanged. -/
theorem lookupEntry_applyCacheOp_other (st : RedisState String)
    (op : CacheOp) (t : Nat) (key : String) (h : op.writesKey ≠ key) :
    lookupEntry (applyCacheOp st (op, t)) key = lookupEntry st key := by
  cases op with
  | setOp k v e =>
    exact lookupEntry_redisSet_other st k v e t key h
  | delOp k =>
    exact lookupEntry_redisDelete_other st k key h
  | setSessionOp sid d e =>
    exact lookupEntry_redisSet_other st (sessionKey sid) d e t key h
  | delSessionOp sid =>
    exact lookupEntry_redisDelete_other st (sessionKey sid) key h
  | blacklistOp jti e =>
    exact lookupEntry_redisSet_other st (blacklistKey jti) "revoked" e t key h

/-- Cache operations do not change the connection flag. -/
theorem conn_applyCacheOp (st : RedisState String) (p : CacheOp × Nat) :
    (applyCacheOp st p).conn = st.conn := by
  obtain ⟨op, t⟩ := p
  obtain ⟨conn, failing, store⟩ := st
  cases op <;> cases conn <;> cases failing <;> rfl

/-- Cache operations do not change the failure flag. -/
theorem failing_applyCacheOp (st : RedisState String) (p : CacheOp × Nat) :
    (applyCacheOp st p).failing = st.failing := by
  obtain ⟨op, t⟩ := p
  obtain ⟨conn, failing, store⟩ := st
  cases op <;> cases conn <;> cases failing <;> rfl

/-- A sequence of cache operations that never writes `key` leaves the
stored entry of `key` unchanged. -/
theorem lookupEntry_applyCacheOps_other (st : RedisState String)
    (ops : List (CacheOp × Nat)) (key : String)
    (h : ∀ p ∈ ops, CacheOp.writesKey p.1 ≠ key) :
    lookupEntry (applyCacheOps st ops) key = lookupEntry st key := by
  induction ops generalizing st with
  | nil => rfl
  | cons p ops ih =>
    simp only [applyCacheOps, List.foldl_cons]
    rw [show ops.foldl applyCacheOp (applyCacheOp st p) =
        applyCacheOps (applyCacheOp st p) ops from rfl,
      ih (applyCacheOp st p) (fun q hq => h q (List.mem_cons_of_mem _ hq))]
    obtain ⟨op, t⟩ := p
    exact lookupEntry_applyCacheOp_other st op t key
      (h _ (List.mem_cons_self _ _))

/-- A sequence of cache operations does not change the connection flag. -/
theorem conn_applyCacheOps (st : RedisState String)
    (ops : List (CacheOp × Nat)) :
    (applyCacheOps st ops).conn = st.conn := by
  induction ops generalizing st with
  | nil => rfl
  | cons p ops ih =>
    simp only [applyCacheOps, List.foldl_cons]
    rw [show ops.foldl applyCacheOp (applyCacheOp st p) =
        applyCacheOps (applyCacheOp st p) ops from rfl, ih,
      conn_applyCacheOp]

/-- A sequence of cache operations does not change the failure flag. -/
theorem failing_applyCacheOps (st : RedisState String)
    (ops : List (CacheOp × Nat)) :
    (applyCacheOps st ops).failing = st.failing := by
  induction ops generalizing st with
  | nil => rfl
  | cons p ops ih =>
    simp only [applyCacheOps, List.foldl_cons]
    rw [show ops.foldl applyCacheOp (applyCacheOp st p) =
        applyCacheOps (applyCacheOp st p) ops from rfl, ih,
      failing_applyCacheOp]

/-- C5: blacklisting on logout succeeds on a healthy cache, writes an
entry whose expiry instant is exactly the token's own `exp` (TTL =
remaining lifetime), and — across any later cache traffic that does not
write this jti's blacklist key — every subsequent `is_token_blacklisted`
check answers `true` strictly before the token's natural expiry and
`false` from the expiry instant on. -/
theorem blacklist_persists_until_token_expiry (st : RedisState String)
    (payload : Claims) (t0 : Nat) (ops : List (CacheOp × Nat))
    (hconn : st.conn = true) (hfail : st.failing = false)
    (hexp : t0 < payload.exp)
    (hops : ∀ p ∈ ops, CacheOp.writesKey p.1 ≠ blacklistKey payload.jti) :
    (logout_blacklist_access st payload t0).1 = true ∧
    lookupEntry (applyCacheOps (logout_blacklist_access st payload t0).2 ops)
        (blacklistKey payload.jti) =
      some ⟨"revoked", some payload.exp⟩ ∧
    (∀ t, t0 ≤ t → t < payload.exp →
      is_token_blacklisted
        (applyCacheOps (logout_blacklist_access st payload t0).2 ops)
        payload.jti t = true) ∧
    (∀ t, payload.exp ≤ t →
      is_token_blacklisted
        (applyCacheOps (logout_blacklist_access st payload t0).2 ops)
        payload.jti t = false) := by
  obtain ⟨conn, failing, store⟩ := st
  replace hconn : conn = true := hconn
  replace hfail : failing = false := hfail
  subst hconn
  subst hfail
  have harith : t0 + (payload.exp - t0) = payload.exp := by omega
  have hentry :
      lookupEntry
        (logout_blacklist_access ⟨true, false, store⟩ payload t0).2
        (blacklistKey payload.jti) = some ⟨"revoked", some payload.exp⟩ := by
    simp only [logout_blacklist_access, if_pos hexp, blacklist_token,
      redisSet, lookupEntry]
    rw [List.find?_cons_of_pos _ (by simp)]
    simp [harith]
  have hconn1 :
      (logout_blacklist_access ⟨true, false, store⟩ payload t0).2.conn =
        true := by
    simp only [logout_blacklist_access, if_pos hexp, blacklist_token,
      redisSet]
  have hfail1 :
      (logout_blacklist_access ⟨true, false, store⟩ payload t0).2.failing =
        false := by
    simp only [logout_blacklist_access, if_pos hexp, blacklist_token,
      redisSet]
  have hpres :
      lookupEntry
        (applyCacheOps
          (logout_blacklist_access ⟨true, false, store⟩ payload t0).2 ops)
        (blacklistKey payload.jti) = some ⟨"revoked", some payload.exp⟩ := by
    rw [lookupEntry_applyCacheOps_other _ _ _ hops, hentry]
  have hconn2 :
      (applyCacheOps
        (logout_blacklist_access ⟨true, false, store⟩ payload t0).2
        ops).conn = true := by
    rw [conn_applyCacheOps, hconn1]
  have hfail2 :
      (applyCacheOps
        (logout_blacklist_access ⟨true, false, store⟩ payload t0).2
        ops).failing = false := by
    rw [failing_applyCacheOps, hfail1]
  refine ⟨?_, hpres, ?_, ?_⟩
  · simp only [logout_blacklist_access, if_pos hexp, blacklist_token,
      redisSet]
  · intro t _ ht2
    simp only [is_token_blacklisted, redisExists, hconn2, hfail2, liveValue,
      hpres, if_pos ht2, Option.isSome_some]
  · intro t ht
    simp only [is_token_blacklisted, redisExists, hconn2, hfail2, liveValue,
      hpres, if_neg (Nat.not_lt.mpr ht), Option.isSome_none]

/-- Witness for C5: logging out `sampleClaims` (exp = 1000, jti = "j0") at
900 over the healthy cache, followed by a session write and a blacklist
write for a different jti, keeps "j0" blacklisted at 950 and releases it
at 1000. -/
theorem blacklist_persists_until_token_expiry_witness :
    (logout_blacklist_access healthyCache sampleClaims 900).1 = true ∧
    is_token_blacklisted
      (applyCacheOps (logout_blacklist_access healthyCache sampleClaims
        900).2 witnessOps) "j0" 950 = true ∧
    is_token_blacklisted
      (applyCacheOps (logout_blacklist_access healthyCache sampleClaims
        900).2 witnessOps) "j0" 1000 = false := by
  have h := blacklist_persists_until_token_expiry healthyCache sampleClaims
    900 witnessOps rfl rfl (by decide) (by decide)
  exact ⟨h.1, h.2.2.1 950 (by decide) (by decide), h.2.2.2 1000 (by decide)⟩

/-- Filtering a key out of the store leaves nothing for a lookup of that
key to find. -/
theorem find?_filter_self {V : Type} (l : List (String × CacheEntry V))
    (key : String) :
    (l.filter (fun kv => decide (kv.1 ≠ key))).find?
      (fun kv => decide (kv.1 = key)) = none := by
  rw [List.find?_eq_none]
  intro x hx
  have hne := (List.mem_filter.mp hx).2
  simp only [decide_eq_true_eq] at hne ⊢
  exact hne

/-- C6: completing MFA with a partial-auth token whose cache entry is
missing or expired fails with the session-expired error; with the entry
present and a valid TOTP code the call succeeds, returns the principal id,
and leaves a state whose entry is deleted, so a second completion with the
same token fails with the session-expired error at any later instant; and
because the code is verified with `check_backup=False`, any code that is
not a valid TOTP code fails with the invalid-code error — whatever backup
codes exist in the state. -/
theorem mfa_completion_session_lifecycle (st stMiss : AuthState)
    (token code secret : String) (now : Nat) (pending : PendingAuthData)
    (user : UserRec)
    (hmiss : redisGet stMiss.cache ("partial_auth:" ++ token) now = none)
    (hget : redisGet st.cache ("partial_auth:" ++ token) now = some pending)
    (hfind : st.users.find? (fun u => decide (u.id = pending.userId)) =
      some user)
    (hen : user.mfaEnabled = true)
    (hsec : user.mfaSecret = some secret)
    (hconn : st.cache.conn = true) (hfail : st.cache.failing = false)
    (htotp : totp_verify secret code now = true) :
    complete_mfa_authentication stMiss token code now =
      .error .sessionExpired ∧
    (∃ st2,
      complete_mfa_authentication st token code now = .ok (user.id, st2) ∧
      ∀ (later : Nat) (code2 : String),
        complete_mfa_authentication st2 token code2 later =
          .error .sessionExpired) ∧
    (∀ code2, totp_verify secret code2 now = false →
      complete_mfa_authentication st token code2 now =
        .error .invalidCode) := by
  obtain ⟨cache, users, backupDb⟩ := st
  obtain ⟨conn, failing, cstore⟩ := cache
  replace hconn : conn = true := hconn
  replace hfail : failing = false := hfail
  subst hconn
  subst hfail
  refine ⟨?_, ?_, ?_⟩
  · simp [complete_mfa_authentication, hmiss]
  · refine ⟨⟨(redisDelete (⟨true, false, cstore⟩ : RedisState PendingAuthData)
        ("partial_auth:" ++ token)).2, users, backupDb⟩, ?_, ?_⟩
    · simp [complete_mfa_authentication, hget, hfind, verify_mfa_code, hsec,
        hen, htotp]
    · intro later code2
      have hnone :
          redisGet (redisDelete
              (⟨true, false, cstore⟩ : RedisState PendingAuthData)
              ("partial_auth:" ++ token)).2
            ("partial_auth:" ++ token) later = none := by
        simp only [redisDelete, redisGet, liveValue, lookupEntry]
        rw [find?_filter_self]
        rfl
      simp [complete_mfa_authentication, hnone]
  · intro code2 h2
    simp [complete_mfa_authentication, hget, hfind, verify_mfa_code, hsec,
      hen, h2]

/-- Witness for C6: completing "tok1" at 120 with the TOTP code of secret
"S" at step 4 succeeds for principal "u1" and deletes the entry, so the
replay at 130 hits the session-expired error; the state without the entry
errors immediately; a non-TOTP code is rejected. -/
theorem mfa_completion_session_lifecycle_witness :
    complete_mfa_authentication emptyAuthState "tok1" (totp_code "S" 4) 120 =
      .error .sessionExpired ∧
    (∃ st2, complete_mfa_authentication mfaAuthState "tok1"
        (totp_code "S" 4) 120 = .ok (mfaUser.id, st2) ∧
      complete_mfa_authentication st2 "tok1" (totp_code "S" 4) 130 =
        .error .sessionExpired) ∧
    complete_mfa_authentication mfaAuthState "tok1" "AAAA-BBBB" 120 =
      .error .invalidCode := by
  have h := mfa_completion_session_lifecycle mfaAuthState emptyAuthState
    "tok1" (totp_code "S" 4) "S" 120 ⟨"u1", 100⟩ mfaUser rfl rfl rfl rfl rfl
    rfl rfl (by decide)
  obtain ⟨h1, ⟨st2, hok, hre⟩, h3⟩ := h
  exact ⟨h1, ⟨st2, hok, hre 130 (totp_code "S" 4)⟩,
    h3 "AAAA-BBBB" (by decide)⟩

/-- C1 (code bug): two calls race on the same correct backup code, both
executing their SELECT before either commits (both `selectUnusedCodes`
snapshots are taken over the initial table).  The first call commits and
returns `True`; the second call, replaying its stale snapshot through the
same marking phase, also returns `True` and rewrites the already-used
record's `used_at` from 100 to 101 — `mark_as_used` assigns
`is_used = True` unconditionally and there is no `WHERE is_used = false`
guard, so success is not exclusive and the winner's write is not
protected. -/
theorem backup_code_race_double_success :
    (verify_backup_code raceDb "u1" "AAAA-BBBB" none 100).1 = true ∧
    (commitMatch (verify_backup_code raceDb "u1" "AAAA-BBBB" none 100).2
        (selectUnusedCodes raceDb "u1" 100) "AAAA-BBBB" 101 none).1 =
      true ∧
    ((verify_backup_code raceDb "u1" "AAAA-BBBB" none 100).2.map
      (fun r => r.usedAt)) = [some 100] ∧
    ((commitMatch (verify_backup_code raceDb "u1" "AAAA-BBBB" none 100).2
        (selectUnusedCodes raceDb "u1" 100) "AAAA-BBBB" 101 none).2.map
      (fun r => r.usedAt)) = [some 101] := by
  exact ⟨rfl, rfl, rfl, rfl⟩

/-- The idealised bcrypt digest is injective. -/
theorem hashCode_inj {a b : String} (h : hashCode a = hashCode b) : a = b := by
  have hd := congrArg String.data h
  simp only [hashCode, String.data_append] at hd
  exact String.ext (List.append_cancel_left hd)

/-- Storing a batch creates one row per code. -/
theorem length_store_backup_codes (uid : String) (codes : List String)
    (t0 fid : Nat) :
    (store_backup_codes uid codes t0 fid).length = codes.length := by
  induction codes generalizing fid with
  | nil => rfl
  | cons c rest ih => simp [store_backup_codes, ih]

/-- Every stored row is an unused, one-year-dated row of the owner, whose
id and digest come from one position of the batch. -/
theorem mem_store_backup_codes (uid : String) (codes : List String)
    (t0 fid : Nat) (bc : MFABackupCode)
    (hbc : bc ∈ store_backup_codes uid codes t0 fid) :
    bc.userId = uid ∧ bc.isUsed = false ∧
    bc.expiresAt = some (t0 + 365 * 86400) ∧
    ∃ j : Fin codes.length, bc.id = fid + j.1 ∧
      bc.codeHash = hashCode (codes.get j) := by
  induction codes generalizing fid with
  | nil => cases hbc
  | cons c rest ih =>
    rcases List.mem_cons.mp hbc with rfl | htail
    · refine ⟨rfl, rfl, rfl, ⟨0, by simp⟩, ?_, rfl⟩
      simp [newBackupCode]
    · obtain ⟨h1, h2, h3, j, hj1, hj2⟩ := ih (fid + 1) htail
      refine ⟨h1, h2, h3, ⟨j.1 + 1, Nat.succ_lt_succ j.2⟩, by
        simp only []
        omega, hj2⟩

/-- Searching the freshly stored batch for the digest of the i-th code
finds exactly the i-th row. -/
theorem find?_store_backup_codes (uid : String) (codes : List String)
    (t0 fid i : Nat) (hi : i < codes.length) (hnd : codes.Nodup) :
    (store_backup_codes uid codes t0 fid).find?
      (fun bc => verifyHash (codes.get ⟨i, hi⟩) bc.codeHash) =
    some (newBackupCode uid (codes.get ⟨i, hi⟩) t0 (fid + i)) := by
  induction codes generalizing fid i with
  | nil => exact absurd hi (by simp)
  | cons c rest ih =>
    cases i with
    | zero =>
      simp only [store_backup_codes, List.get_cons_zero, List.find?_cons]
      simp [verifyHash, newBackupCode]
    | succ j =>
      have hj : j < rest.length := by simp at hi; omega
      have hcne : c ≠ rest.get ⟨j, hj⟩ := by
        intro he
        exact (List.nodup_cons.mp hnd).1 (he ▸ List.get_mem rest _ _)
      simp only [store_backup_codes, List.get_cons_succ, List.find?_cons]
      have hpred : verifyHash (rest.get ⟨j, Nat.lt_of_succ_lt_succ hi⟩)
          (newBackupCode uid c t0 fid).codeHash = false := by
        simp only [verifyHash, newBackupCode, decide_eq_false_iff_not]
        intro he
        exact hcne (hashCode_inj he)
      simp only [hpred]
      rw [ih (fid + 1) j hj (List.nodup_cons.mp hnd).2]
      have harith : fid + 1 + j = fid + (j + 1) := by omega
      rw [harith]

/-- Marking a row id below every id of the batch leaves every row
unused. -/
theorem filter_used_marked_store_nil (uid : String) (codes : List String)
    (t0 t1 fid m : Nat) (hm : m < fid) :
    ((store_backup_codes uid codes t0 fid).map
      (fun r => if r.id = m then r.mark_as_used t1 none else r)).filter
      (fun bc => bc.isUsed) = [] := by
  rw [List.filter_eq_nil_iff]
  intro x hx
  obtain ⟨r, hr, rfl⟩ := List.mem_map.mp hx
  obtain ⟨_, hused, _, j, hid, _⟩ :=
    mem_store_backup_codes uid codes t0 fid r hr
  have hne : r.id ≠ m := by omega
  simp [hne, hused]

/-- Marking the row whose id corresponds to position `i` of the batch
leaves exactly one used row. -/
theorem count_used_marked_store (uid : String) (codes : List String)
    (t0 t1 fid i : Nat) (hi : i < codes.length) :
    (((store_backup_codes uid codes t0 fid).map
      (fun r => if r.id = fid + i then r.mark_as_used t1 none else r)).filter
      (fun bc => bc.isUsed)).length = 1 := by
  induction codes generalizing fid i with
  | nil => exact absurd hi (by simp)
  | cons c rest ih =>
    cases i with
    | zero =>
      simp only [store_backup_codes, List.map_cons]
      rw [List.filter_cons_of_pos
        (by simp [newBackupCode, MFABackupCode.mark_as_used]),
        filter_used_marked_store_nil uid rest t0 t1 (fid + 1) (fid + 0)
          (by omega)]
      rfl
    | succ j =>
      have hj : j < rest.length := by simp at hi; omega
      simp only [store_backup_codes, List.map_cons]
      rw [List.filter_cons_of_neg (by
        have hne : fid ≠ fid + (j + 1) := by omega
        simp [newBackupCode, hne])]
      have harith : fid + (j + 1) = (fid + 1) + j := by omega
      simp only [harith]
      exact ih (fid + 1) j hj

/-- Every row of the marked table still belongs to the owner, and every
row that is still unused carries the digest of a batch position other
than the marked one. -/
theorem mem_marked_store (uid : String) (codes : List String)
    (t0 t1 fid i : Nat) (bc : MFABackupCode)
    (hbc : bc ∈ (store_backup_codes uid codes t0 fid).map
      (fun r => if r.id = fid + i then r.mark_as_used t1 none else r)) :
    bc.userId = uid ∧
    (bc.isUsed = false →
      ∃ j : Fin codes.length, j.1 ≠ i ∧
        bc.codeHash = hashCode (codes.get j)) := by
  obtain ⟨r, hr, rfl⟩ := List.mem_map.mp hbc
  obtain ⟨hu, hused, _, j, hid, hhash⟩ :=
    mem_store_backup_codes uid codes t0 fid r hr
  by_cases hmark : r.id = fid + i
  · rw [if_pos hmark]
    refine ⟨hu, fun hfalse => ?_⟩
    simp [MFABackupCode.mark_as_used] at hfalse
  · rw [if_neg hmark]
    exact ⟨hu, fun _ => ⟨j, by omega, hhash⟩⟩

/-- At any instant inside the codes' one-year validity window, the SELECT
of `_verify_backup_code` over a fresh batch of at most 15 codes returns
the whole batch. -/
theorem select_store_backup_codes (uid : String) (codes : List String)
    (t0 t1 fid : Nat) (hfresh : t1 < t0 + 365 * 86400)
    (hlen : codes.length ≤ 15) :
    selectUnusedCodes (store_backup_codes uid codes t0 fid) uid t1 =
      store_backup_codes uid codes t0 fid := by
  have hfil : (store_backup_codes uid codes t0 fid).filter
      (fun bc => decide (bc.userId = uid) && !bc.isUsed &&
        (match bc.expiresAt with
         | some e => decide (t1 < e)
         | none => false)) = store_backup_codes uid codes t0 fid := by
    rw [List.filter_eq_self]
    intro bc hbc
    obtain ⟨hu, hused, hexp, _⟩ :=
      mem_store_backup_codes uid codes t0 fid bc hbc
    simp [hu, hused, hexp, hfresh]
  unfold selectUnusedCodes
  rw [hfil]
  exact List.take_of_length_le (by rw [length_store_backup_codes]; omega)

/-- C7: over a freshly stored batch of 10 pairwise distinct codes, using
the i-th code succeeds and marks exactly one record used while deleting
nothing (the table keeps its 10 rows); a later attempt to verify the same
code fails (the invalid-code outcome); and the backup-codes-info report
then shows 10 total, 1 used and 9 remaining codes. -/
theorem backup_code_single_use_batch (uid : String) (codes : List String)
    (t0 t1 t2 fid i : Nat)
    (hlen : codes.length = 10) (hnd : codes.Nodup) (hi : i < codes.length)
    (hfresh : t1 < t0 + 365 * 86400) :
    (verify_backup_code (store_backup_codes uid codes t0 fid) uid
        (codes.get ⟨i, hi⟩) none t1).1 = true ∧
    (verify_backup_code (store_backup_codes uid codes t0 fid) uid
        (codes.get ⟨i, hi⟩) none t1).2.length = 10 ∧
    ((verify_backup_code (store_backup_codes uid codes t0 fid) uid
        (codes.get ⟨i, hi⟩) none t1).2.filter
        (fun bc => bc.isUsed)).length = 1 ∧
    (verify_backup_code
        (verify_backup_code (store_backup_codes uid codes t0 fid) uid
          (codes.get ⟨i, hi⟩) none t1).2 uid
        (codes.get ⟨i, hi⟩) none t2).1 = false ∧
    (get_backup_codes_info
        (verify_backup_code (store_backup_codes uid codes t0 fid) uid
          (codes.get ⟨i, hi⟩) none t1).2 uid).totalCodes = 10 ∧
    (get_backup_codes_info
        (verify_backup_code (store_backup_codes uid codes t0 fid) uid
          (codes.get ⟨i, hi⟩) none t1).2 uid).usedCodes = 1 ∧
    (get_backup_codes_info
        (verify_backup_code (store_backup_codes uid codes t0 fid) uid
          (codes.get ⟨i, hi⟩) none t1).2 uid).remainingCodes = 9 := by
  have hverify : verify_backup_code (store_backup_codes uid codes t0 fid)
      uid (codes.get ⟨i, hi⟩) none t1 =
      (true, (store_backup_codes uid codes t0 fid).map
        (fun r => if r.id = fid + i then r.mark_as_used t1 none else r)) := by
    simp only [verify_backup_code,
      select_store_backup_codes uid codes t0 t1 fid hfresh (by omega),
      commitMatch, find?_store_backup_codes uid codes t0 fid i hi hnd,
      newBackupCode]
  rw [hverify]
  have hlength : ((store_backup_codes uid codes t0 fid).map
      (fun r => if r.id = fid + i then r.mark_as_used t1 none else r)).length
      = 10 := by
    rw [List.length_map, length_store_backup_codes]
    omega
  have hcount := count_used_marked_store uid codes t0 t1 fid i hi
  have hrows : ((store_backup_codes uid codes t0 fid).map
      (fun r => if r.id = fid + i then r.mark_as_used t1 none else r)).filter
      (fun bc => decide (bc.userId = uid)) =
      (store_backup_codes uid codes t0 fid).map
        (fun r => if r.id = fid + i then r.mark_as_used t1 none else r) := by
    rw [List.filter_eq_self]
    intro bc hbc
    simpa using (mem_marked_store uid codes t0 t1 fid i bc hbc).1
  have hnone : ∀ t : Nat,
      (selectUnusedCodes
        ((store_backup_codes uid codes t0 fid).map
          (fun r => if r.id = fid + i then r.mark_as_used t1 none else r))
        uid t).find?
        (fun bc => verifyHash (codes.get ⟨i, hi⟩) bc.codeHash) = none := by
    intro t
    rw [List.find?_eq_none]
    intro x hx
    simp only [selectUnusedCodes] at hx
    have hx2 := List.mem_of_mem_take hx
    have hmem := (List.mem_filter.mp hx2).1
    have hpred := (List.mem_filter.mp hx2).2
    have hunused : x.isUsed = false := by
      simp only [Bool.and_eq_true] at hpred
      simpa using hpred.1.2
    obtain ⟨_, himp⟩ := mem_marked_store uid codes t0 t1 fid i x hmem
    obtain ⟨j, hji, hhash⟩ := himp hunused
    simp only [verifyHash, hhash, decide_eq_true_eq]
    intro he
    have hgeteq : codes.get j = codes.get ⟨i, hi⟩ := hashCode_inj he
    have hjeq : j = ⟨i, hi⟩ := hnd.get_inj_iff.mp hgeteq
    apply hji
    rw [hjeq]
  refine ⟨rfl, hlength, hcount, ?_, ?_, ?_, ?_⟩
  · simp only [verify_backup_code, commitMatch, hnone t2]
  · simp only [get_backup_codes_info, hrows]
    exact hlength
  · simp only [get_backup_codes_info, hrows]
    exact hcount
  · simp only [get_backup_codes_info, hrows, hlength, hcount]

/-- Witness for C7: the concrete batch `witnessCodes` stored at time 0;
using code #3 ("C2CC-CCCC", index 2) at time 5 succeeds, leaves 10 rows
with exactly one used, rejects the same code at time 6, and the info
report shows 9 remaining. -/
theorem backup_code_single_use_batch_witness :
    (verify_backup_code (store_backup_codes "u1" witnessCodes 0 0) "u1"
        "C2CC-CCCC" none 5).1 = true ∧
    (verify_backup_code (store_backup_codes "u1" witnessCodes 0 0) "u1"
        "C2CC-CCCC" none 5).2.length = 10 ∧
    ((verify_backup_code (store_backup_codes "u1" witnessCodes 0 0) "u1"
        "C2CC-CCCC" none 5).2.filter (fun bc => bc.isUsed)).length = 1 ∧
    (verify_backup_code
        (verify_backup_code (store_backup_codes "u1" witnessCodes 0 0) "u1"
          "C2CC-CCCC" none 5).2 "u1" "C2CC-CCCC" none 6).1 = false ∧
    (get_backup_codes_info
        (verify_backup_code (store_backup_codes "u1" witnessCodes 0 0) "u1"
          "C2CC-CCCC" none 5).2 "u1").remainingCodes = 9 := by
  have h := backup_code_single_use_batch "u1" witnessCodes 0 5 6 0 2
    (by decide) (by decide) (by decide) (by decide)
  exact ⟨h.1, h.2.1, h.2.2.1, h.2.2.2.1, h.2.2.2.2.2.2⟩

end Smithy
